import Mathlib

/-!
# Verification of the `networkst` CDP/LLDP parsing and reconciliation core

A shallow embedding of `src/networkst` (models.py, switch.py, errors.py,
connection.py).  Python `str` is modelled as `List Char`; the specific
regular expressions of `switch.py` are embedded as executable searches
(literal prefix followed by a tail matcher for `\S+`, `\d+\.\d+\.\d+\.\d+`,
`.*?,` and `\S+,` with Python `re.search` leftmost semantics); pydantic
model construction, `IPv4Address` conversion and connection checks are
embedded as `Except`-valued functions whose error constructors mirror the
Python exception kinds.  The remote session is modelled as the value of
`find_prompt()`; command responses are plain text inputs.
-/

namespace Networkst

/-- Python `str`, modelled as a list of characters. -/
abbrev Str := List Char

/-- Python whitespace for `\s` / `\S` / `str.strip()`: space, tab, LF, CR,
vertical tab, form feed. -/
def isPySpace (c : Char) : Bool :=
  c = ' ' || c = '\t' || c = '\n' || c = '\r' || c = '\x0b' || c = '\x0c'

/-- Regex `\d`. -/
def isDigitCh (c : Char) : Bool :=
  '0' ≤ c && c ≤ '9'

/-- `leadsWith pat s` is true when `pat` is a prefix of `s`
(Python `s.startswith(pat)` used to locate literal regex parts). -/
def leadsWith : Str → Str → Bool
  | [], _ => true
  | _ :: _, [] => false
  | a :: as_, b :: bs => a = b && leadsWith as_ bs

/-- Tail matcher for `(\S+)` at the current position: the capture is the
maximal run of non-whitespace characters, and the match fails when that run
is empty. -/
def matchNonspace (cs : Str) : Option Str :=
  let r := cs.takeWhile (fun c => !isPySpace c)
  if r = [] then none else some r

/-- `cs.takeWhile isDigitCh` together with the rest (regex `\d+`, greedy). -/
def readDigits (cs : Str) : Str × Str :=
  (cs.takeWhile isDigitCh, cs.dropWhile isDigitCh)

/-- Tail matcher for `(\d+\.\d+\.\d+\.\d+)` at the current position: four
nonempty digit runs separated by dots; the capture is the matched text. -/
def matchIP (cs : Str) : Option Str :=
  let p1 := readDigits cs
  if p1.1 = [] then none else
  match p1.2 with
  | '.' :: r1 =>
    let p2 := readDigits r1
    if p2.1 = [] then none else
    match p2.2 with
    | '.' :: r2 =>
      let p3 := readDigits r2
      if p3.1 = [] then none else
      match p3.2 with
      | '.' :: r3 =>
        let p4 := readDigits r3
        if p4.1 = [] then none else
        some (p1.1 ++ '.' :: p2.1 ++ '.' :: p3.1 ++ '.' :: p4.1)
      | _ => none
    | _ => none
  | _ => none

/-- Tail matcher for lazy `(.*?),`: the capture is everything up to the
first comma, failing if a `\n` (which `.` does not match) or the end of the
text comes first. -/
def lazyComma : Str → Option Str
  | [] => none
  | c :: cs =>
    if c = ',' then some []
    else if c = '\n' then none
    else (lazyComma cs).map (c :: ·)

/-- Longest proper «before the last comma» split of a run: `upToLastComma r`
is the part of `r` before its last `','`, or `none` when `r` has no comma. -/
def upToLastComma : Str → Option Str
  | [] => none
  | c :: cs =>
    match upToLastComma cs with
    | some t => some (c :: t)
    | none => if c = ',' then some [] else none

/-- Tail matcher for greedy `(\S+),`: the capture is the maximal
non-whitespace run cut at its last comma, which must leave a nonempty
capture. -/
def matchNonspaceComma (cs : Str) : Option Str :=
  match upToLastComma (cs.takeWhile (fun c => !isPySpace c)) with
  | some t => if t = [] then none else some t
  | none => none

/-- One attempt of the whole pattern at the current position: the literal
part must be a prefix here, then the tail matcher runs on the remainder. -/
def tryLit (lit : Str) (tail : Str → Option Str) (cs : Str) : Option Str :=
  if leadsWith lit cs then tail (cs.drop lit.length) else none

/-- `re.search` leftmost semantics: try the pattern at every position, in
order, returning the first successful capture. -/
def searchAux (f : Str → Option Str) : Str → Option Str
  | [] => f []
  | c :: cs =>
    match f (c :: cs) with
    | some v => some v
    | none => searchAux f cs

/-- `re.search` for a pattern made of a literal followed by a tail matcher. -/
def reSearch (lit : String) (tail : Str → Option Str) (s : Str) : Option Str :=
  searchAux (tryLit lit.toList tail) s

/-- `pat in s` (Python substring test, used for "CDP is not enabled"). -/
def containsSub (s : Str) (pat : String) : Bool :=
  (reSearch pat (fun _ => some []) s).isSome

/-- Python `s.split(sep)` for nonempty `sep`, via structural fuel. -/
def splitOnGo (sep : Str) : Nat → Str → Str → List Str
  | _, [], acc => [acc.reverse]
  | 0, rest, acc => [acc.reverse ++ rest]
  | Nat.succ n, c :: cs, acc =>
    if leadsWith sep (c :: cs) then
      acc.reverse :: splitOnGo sep n ((c :: cs).drop sep.length) []
    else
      splitOnGo sep n cs (c :: acc)

/-- Python `s.split(sep)`. -/
def splitOnL (sep : Str) (s : Str) : List Str :=
  splitOnGo sep (s.length + 1) s []

/-- Python `sep.join(xs)`. -/
def joinL (sep : Str) : List Str → Str
  | [] => []
  | [x] => x
  | x :: y :: ys => x ++ sep ++ joinL sep (y :: ys)

/-- Python `s.strip()`. -/
def pyStrip (s : Str) : Str :=
  ((s.dropWhile isPySpace).reverse.dropWhile isPySpace).reverse

/-! ## Python exceptions and `ipaddress.IPv4Address` -/

/-- The Python exception kinds the embedded code can raise:
pydantic `ValidationError`, `ipaddress.AddressValueError`,
`CDPNotEnabledError`, `NotConnectedError` (errors.py), plus the built-in
`AttributeError` and `AssertionError`. -/
inductive PyErr where
  | validationError
  | addressValueError
  | cdpNotEnabled
  | notConnected
  | attributeError
  | assertionError
deriving DecidableEq

instance {ε α : Type} [DecidableEq ε] [DecidableEq α] :
    DecidableEq (Except ε α) := fun a b =>
  match a, b with
  | .error e, .error f =>
    match decEq e f with
    | isTrue h => isTrue (h ▸ rfl)
    | isFalse h => isFalse (fun hc => h (Except.error.inj hc))
  | .error _, .ok _ => isFalse (fun hc => Except.noConfusion hc)
  | .ok _, .error _ => isFalse (fun hc => Except.noConfusion hc)
  | .ok x, .ok y =>
    match decEq x y with
    | isTrue h => isTrue (h ▸ rfl)
    | isFalse h => isFalse (fun hc => h (Except.ok.inj hc))

/-- An IPv4 address value (`ipaddress.IPv4Address`), compared by value. -/
structure IPv4 where
  o1 : Nat
  o2 : Nat
  o3 : Nat
  o4 : Nat
deriving DecidableEq

/-- Numeric value of a digit string. -/
def digitsVal (s : Str) : Nat :=
  s.foldl (fun n c => n * 10 + (c.toNat - 48)) 0

/-- One octet as accepted by `ipaddress.IPv4Address`: 1–3 digits, no
leading zero, value at most 255. -/
def parseOctet (s : Str) : Option Nat :=
  if s = [] then none
  else if !s.all isDigitCh then none
  else if decide (1 < s.length) && s.headI = '0' then none
  else if decide (3 < s.length) then none
  else if digitsVal s ≤ 255 then some (digitsVal s) else none

/-- `IPv4Address(s)`: `some` on a valid dotted quad, `none` when the
constructor would raise `AddressValueError`. -/
def parseIPv4 (s : Str) : Option IPv4 :=
  match splitOnL ['.'] s with
  | [a, b, c, d] =>
    match parseOctet a, parseOctet b, parseOctet c, parseOctet d with
    | some x, some y, some z, some w => some ⟨x, y, z, w⟩
    | _, _, _, _ => none
  | _ => none

/-! ## Protocol models (models.py)

pydantic `BaseModel` classes.  Fields annotated `str` are required: pydantic
raises `ValidationError` when such a field is missing at construction, which
the pipeline functions below model with `Except`.  Fields annotated
`IPv4Address | None` are modelled as `Option IPv4`. -/

/-- `Neighbor` (models.py): hostname plus optional IP; pydantic equality and
the explicit `__hash__` both key on the `(hostname, ip)` pair. -/
structure Neighbor where
  hostname : Str
  ip : Option IPv4
deriving DecidableEq

/-- `CiscoCDP` (models.py). -/
structure CiscoCDP where
  device_id : Str
  entry_ip : Option IPv4
  platform : Str
  interface : Str
  outgoing_port : Str
  duplex : Str
  management_ip : Option IPv4
deriving DecidableEq

/-- `CiscoLLDP` (models.py). -/
structure CiscoLLDP where
  chassis_id : Str
  port_id : Str
  interface : Str
  system_name : Str
  management_ip : Option IPv4
deriving DecidableEq

/-- `CiscoCDP.__eq__` on a `CiscoLLDP` operand (models.py lines 27–30). -/
def cdpEqLldp (c : CiscoCDP) (l : CiscoLLDP) : Bool :=
  (c.device_id == l.system_name) && (c.management_ip == l.management_ip)

/-- `CiscoLLDP.__eq__` on a `CiscoCDP` operand (models.py lines 45–48). -/
def lldpEqCdp (l : CiscoLLDP) (c : CiscoCDP) : Bool :=
  (l.system_name == c.device_id) && (l.management_ip == c.management_ip)

/-! ## CDP parsing (switch.py, `CiscoSwitch.get_cdp`) -/

/-- The `matched` dictionary of `get_cdp` after the pattern loop: for each
of the seven named patterns, the captured string when `re.search` hit. -/
structure CdpMatched where
  device_id : Option Str
  entry_ip : Option Str
  platform : Option Str
  interface : Option Str
  outgoing_port : Option Str
  duplex : Option Str
  management_ip : Option Str
deriving DecidableEq

/-- `len(matched)` at the threshold test (before the IP-field update). -/
def CdpMatched.count (m : CdpMatched) : Nat :=
  (if m.device_id.isSome then 1 else 0) +
  (if m.entry_ip.isSome then 1 else 0) +
  (if m.platform.isSome then 1 else 0) +
  (if m.interface.isSome then 1 else 0) +
  (if m.outgoing_port.isSome then 1 else 0) +
  (if m.duplex.isSome then 1 else 0) +
  (if m.management_ip.isSome then 1 else 0)

/-- The literal head of the `entry_ip` pattern `IP address: (\d+\.…)`. -/
def entryIpLit : String := "IP address: "

/-- The literal head of the `management_ip` pattern
`Management address\(es\): \r\n  IP address: (\d+\.…)`. -/
def mgmtIpLit : String := "Management address(es): \r\n  IP address: "

/-- The seven `re.search` calls of `get_cdp` on one block. -/
def cdpMatch (b : Str) : CdpMatched where
  device_id := reSearch "Device ID: " matchNonspace b
  entry_ip := reSearch entryIpLit matchIP b
  platform := reSearch "Platform: " lazyComma b
  interface := reSearch "Interface: " matchNonspaceComma b
  outgoing_port := reSearch "Port ID (outgoing port): " matchNonspace b
  duplex := reSearch "Duplex: " matchNonspace b
  management_ip := reSearch mgmtIpLit matchIP b

/-- `CiscoCDP(**matched)`: pydantic construction; the five plain-`str`
fields are required, the two IP fields are always passed explicitly. -/
def mkCdp (m : CdpMatched) (eip mip : Option IPv4) :
    Except PyErr (Option CiscoCDP) :=
  match m.device_id, m.platform, m.interface, m.outgoing_port, m.duplex with
  | some d, some p, some i, some o, some du =>
    .ok (some ⟨d, eip, p, i, o, du, mip⟩)
  | _, _, _, _, _ => .error .validationError

/-- One iteration of the block loop of `get_cdp`: match the patterns, skip
the block when at most two matched, convert the IP strings
(`management_ip = matched.get("management_ip") or entry_ip`; both
conversions are guarded by `if entry_ip`), then construct `CiscoCDP`. -/
def parseCdpBlock (b : Str) : Except PyErr (Option CiscoCDP) :=
  let m := cdpMatch b
  if m.count ≤ 2 then .ok none
  else
    match m.entry_ip with
    | none => mkCdp m none none
    | some es =>
      let ms := match m.management_ip with
        | some x => x
        | none => es
      match parseIPv4 es, parseIPv4 ms with
      | some eip, some mip => mkCdp m (some eip) (some mip)
      | _, _ => .error .addressValueError

/-- The block loop of `get_cdp` over all blocks, collecting entries in
order and propagating the first raised exception. -/
def parseCdpAll : List Str → Except PyErr (List CiscoCDP)
  | [] => .ok []
  | b :: bs =>
    match parseCdpBlock b with
    | .error e => .error e
    | .ok none => parseCdpAll bs
    | .ok (some x) =>
      match parseCdpAll bs with
      | .error e => .error e
      | .ok xs => .ok (x :: xs)

/-- The block split of `get_cdp`:
`"\r\n".join(rows).strip().split("-"*25 + "\r\n")` with
`rows = response.split("\n")`. -/
def cdpBlocks (resp : Str) : List Str :=
  splitOnL ("-------------------------\r\n".toList)
    (pyStrip (joinL ("\r\n".toList) (splitOnL ['\n'] resp)))

/-- The disabled-indicator scan of `get_cdp`: any row of the response
contains `"CDP is not enabled"`. -/
def cdpNotEnabledIn (resp : Str) : Bool :=
  (splitOnL ['\n'] resp).any (fun r => containsSub r "CDP is not enabled")

/-! ## Switch state and `get_cdp` (switch.py, `CiscoSwitch`) -/

/-- The neighbor-data state of a `CiscoSwitch`: the stored `self.cdp` and
`self.lldp` lists. -/
structure SwitchState where
  cdp : List CiscoCDP
  lldp : List CiscoLLDP
deriving DecidableEq

/-- `CiscoSwitch.get_cdp` from the point where the command response is in
hand (the session is live and stable; the zero-result `print` has no effect
on the stored lists): scan for the disabled indicator, parse the blocks,
and only on full success assign `self.cdp = result` and return it. -/
def get_cdp (st : SwitchState) (resp : Str) :
    SwitchState × Except PyErr (List CiscoCDP) :=
  if cdpNotEnabledIn resp then (st, .error .cdpNotEnabled)
  else
    match parseCdpAll (cdpBlocks resp) with
    | .error e => (st, .error e)
    | .ok entries => ({ st with cdp := entries }, .ok entries)

/-! ## LLDP parsing and enrichment (switch.py, `CiscoSwitch.get_lldp`) -/

/-- The `matched` dictionary of the LLDP detail loop: the four named
patterns of `get_lldp`. -/
structure LldpMatched where
  chassis_id : Option Str
  port_id : Option Str
  system_name : Option Str
  management_ip : Option Str
deriving DecidableEq

/-- `len(matched)` at the `< 4` threshold test. -/
def LldpMatched.count (m : LldpMatched) : Nat :=
  (if m.chassis_id.isSome then 1 else 0) +
  (if m.port_id.isSome then 1 else 0) +
  (if m.system_name.isSome then 1 else 0) +
  (if m.management_ip.isSome then 1 else 0)

/-- The four `re.search` calls of `get_lldp` on one detail block. -/
def lldpMatch (b : Str) : LldpMatched where
  chassis_id := reSearch "Chassis id: " matchNonspace b
  port_id := reSearch "Port id: " matchNonspace b
  system_name := reSearch "System Name: " matchNonspace b
  management_ip := reSearch "IP: " matchIP b

/-- One element of `detail_result`: the matched dictionary of an accepted
block after the management-IP conversion.  The detail patterns define no
`interface` field, so none is present at this stage. -/
structure LldpRaw where
  chassis_id : Option Str
  port_id : Option Str
  system_name : Option Str
  management_ip : Option IPv4
deriving DecidableEq

/-- One iteration of the detail-block loop of `get_lldp`: match the four
patterns, skip the block when fewer than four matched, convert the
management IP (`IPv4Address(management_ip) if management_ip else None`). -/
def parseLldpBlock (b : Str) : Except PyErr (Option LldpRaw) :=
  let m := lldpMatch b
  if m.count < 4 then .ok none
  else
    match m.management_ip with
    | some s =>
      match parseIPv4 s with
      | some ip => .ok (some ⟨m.chassis_id, m.port_id, m.system_name, some ip⟩)
      | none => .error .addressValueError
    | none => .ok (some ⟨m.chassis_id, m.port_id, m.system_name, none⟩)

/-- The detail-block loop of `get_lldp` over all blocks. -/
def parseLldpAll : List Str → Except PyErr (List LldpRaw)
  | [] => .ok []
  | b :: bs =>
    match parseLldpBlock b with
    | .error e => .error e
    | .ok none => parseLldpAll bs
    | .ok (some x) =>
      match parseLldpAll bs with
      | .error e => .error e
      | .ok xs => .ok (x :: xs)

/-- The block split of `get_lldp`:
`"\r\n".join(rows).strip().split("-"*45 + "\r\n")`. -/
def lldpBlocks (resp : Str) : List Str :=
  splitOnL ("---------------------------------------------\r\n".toList)
    (pyStrip (joinL ("\r\n".toList) (splitOnL ['\n'] resp)))

/-- One line of the brief listing: `re.search(r"(\S+)\s+(\S+)", line)`,
giving the first two whitespace-separated tokens when the line has at
least two. -/
def briefPair (line : Str) : Option (Str × Str) :=
  let cs := line.dropWhile isPySpace
  let run1 := cs.takeWhile (fun c => !isPySpace c)
  let rest := (cs.drop run1.length).dropWhile isPySpace
  let run2 := rest.takeWhile (fun c => !isPySpace c)
  if run1 = [] ∨ run2 = [] then none else some (run1, run2)

/-- `local_intf_mapping.get(k)` where the mapping is built line by line
from `brief.split("\n")` with later lines overwriting earlier ones: the
value of the last line whose first token is `k`. -/
def briefMapGet (brief : Str) (k : Str) : Option Str :=
  (((splitOnL ['\n'] brief).filterMap briefPair).reverse.find?
    (fun p => p.1 == k)).map (·.2)

/-- The enrichment step for one detail record: the `interface` value the
record holds after the
`if local_intf := local_intf_mapping.get(item.get("system_name"))` loop —
present exactly when the system name is a key with a truthy (nonempty)
mapped value. -/
def enrich (brief : Str) (r : LldpRaw) : Option Str :=
  match r.system_name with
  | none => none
  | some k =>
    match briefMapGet brief k with
    | some v => if v = [] then none else some v
    | none => none

/-- `CiscoLLDP(**each)`: pydantic construction; `chassis_id`, `port_id`,
`interface` and `system_name` are required `str` fields. -/
def mkLldpEntry (r : LldpRaw) (intf : Option Str) : Except PyErr CiscoLLDP :=
  match r.chassis_id, r.port_id, intf, r.system_name with
  | some ci, some po, some i, some sn => .ok ⟨ci, po, i, sn, r.management_ip⟩
  | _, _, _, _ => .error .validationError

/-- The final list comprehension of `get_lldp`, building a `CiscoLLDP` from
each enriched detail record. -/
def buildLldp (brief : Str) : List LldpRaw → Except PyErr (List CiscoLLDP)
  | [] => .ok []
  | r :: rs =>
    match mkLldpEntry r (enrich brief r) with
    | .error e => .error e
    | .ok x =>
      match buildLldp brief rs with
      | .error e => .error e
      | .ok xs => .ok (x :: xs)

/-- `CiscoSwitch.get_lldp` from the point where both command responses are
in hand: parse the detail blocks, enrich from the brief listing, and only
on full success assign `self.lldp = result` and return it. -/
def get_lldp (st : SwitchState) (detail brief : Str) :
    SwitchState × Except PyErr (List CiscoLLDP) :=
  match parseLldpAll (lldpBlocks detail) with
  | .error e => (st, .error e)
  | .ok raws =>
    match buildLldp brief raws with
    | .error e => (st, .error e)
    | .ok entries => ({ st with lldp := entries }, .ok entries)

/-! ## Session, connection checks, hostname, neighbors -/

/-- The remote session as the facade observes it: the value its
`find_prompt()` reports (`none` models a dead session with no prompt). -/
structure Session where
  find_prompt : Option Str
deriving DecidableEq

/-- `CiscoSwitch._check_connection`: `self.conn.find_prompt()` is an
attribute access on `None` when no session exists (Python
`AttributeError`), and `NotConnectedError` is raised only when a session
exists but reports no prompt. -/
def check_connection : Option Session → Except PyErr Unit
  | none => .error .attributeError
  | some s => if s.find_prompt = none then .error .notConnected else .ok ()

/-- The guard of `CiscoSwitch.get_lldp`: `assert self.conn is not None` —
an `AssertionError` when no session exists, and no prompt-liveness check
at all otherwise. -/
def lldp_conn_guard : Option Session → Except PyErr Unit
  | none => .error .assertionError
  | some _ => .ok ()

/-- The hostname-relevant state of a `CiscoSwitch`: the session and the
`self._hostname` cache. -/
structure HostStat where
  conn : Option Session
  hostname_cache : Option Str
deriving DecidableEq

/-- The non-cached path of the `hostname` property: `_check_connection`,
then `self._hostname = self.conn.find_prompt()[:-1]`. -/
def hostnameCompute (st : HostStat) : Except PyErr (Str × HostStat) :=
  match st.conn with
  | none => .error .attributeError
  | some s =>
    match s.find_prompt with
    | none => .error .notConnected
    | some p =>
      .ok (p.dropLast, { st with hostname_cache := some p.dropLast })

/-- The `hostname` property: `if self._hostname: return self._hostname`
(a cached empty string is falsy and recomputes), else compute and cache. -/
def hostname (st : HostStat) : Except PyErr (Str × HostStat) :=
  match st.hostname_cache with
  | some h => if h = [] then hostnameCompute st else .ok (h, st)
  | none => hostnameCompute st

/-- The CDP half of the `neighbors` comprehension. -/
def cdpToNeighbor (c : CiscoCDP) : Neighbor :=
  ⟨c.device_id, c.management_ip⟩

/-- The LLDP half of the `neighbors` comprehension. -/
def lldpToNeighbor (l : CiscoLLDP) : Neighbor :=
  ⟨l.system_name, l.management_ip⟩

/-- The `neighbors` property over the stored lists:
`list(set(cdp_results + lldp_results))`, the set formed under `Neighbor`
equality/hash on the `(hostname, ip)` pair. -/
def neighbors (cdp : List CiscoCDP) (lldp : List CiscoLLDP) : List Neighbor :=
  (cdp.map cdpToNeighbor ++ lldp.map lldpToNeighbor).dedup

/-! ## Concrete inputs used by witnesses and counterexamples -/

/-- A CDP block in which exactly three patterns match (`entry_ip`,
`outgoing_port`, `duplex`) and `device_id` does not. -/
def cdpThreeFieldBlock : Str :=
  "IP address: 10.0.0.1\r\nDuplex: full\r\nPort ID (outgoing port): Gi0/2".toList

/-- A CDP block in which the five string-valued patterns match and neither
IP pattern does. -/
def cdpStrBlock : Str :=
  "Device ID: R1\r\nPlatform: cisco,\r\nInterface: Gi0/1,\r\nPort ID (outgoing port): Gi0/2\r\nDuplex: full".toList

/-- A complete CDP block with per-entry IP `10.0.0.1` and an explicit
management address `10.0.0.5`. -/
def cdpFullBlock : Str :=
  "Device ID: R1\r\nIP address: 10.0.0.1\r\nPlatform: cisco WS-C2960, Capabilities\r\nInterface: Gi0/1,  Port ID (outgoing port): Gi0/2\r\nDuplex: full\r\nManagement address(es): \r\n  IP address: 10.0.0.5".toList

/-- A CDP block whose matched per-entry IP string `999.0.0.1` is not a
valid IPv4 address. -/
def cdpMalformedIpBlock : Str :=
  "Device ID: R2\r\nPlatform: cisco,\r\nInterface: Gi0/1,\r\nPort ID (outgoing port): Gi0/2\r\nDuplex: full\r\nIP address: 999.0.0.1".toList

/-- A CDP detail response (newline-separated, as netmiko returns it) whose
single block matches three patterns including the malformed IP. -/
def cdpMalformedIpResp : Str :=
  "Device ID: R1\nIP address: 999.0.0.1\nDuplex: full".toList

/-- A CDP response containing the disabled indicator. -/
def cdpDisabledResp : Str := "% CDP is not enabled".toList

/-- An LLDP detail response whose single block matches all four patterns,
with system name `R9`. -/
def lldpDetailR9 : Str :=
  "Chassis id: aabb.cc00.1100\nPort id: Gi0/2\nSystem Name: R9\nManagement Addresses:\n    IP: 10.0.0.9".toList

/-- A 20-character prompt as `find_prompt()` reports it. -/
def prompt20 : Str := "ABCDEFGHIJKLMNOPQRS#".toList

/-- A sample `CiscoCDP` entry for device `R1` at `10.0.0.1`. -/
def cdpEntryR1 : CiscoCDP :=
  ⟨"R1".toList, some ⟨10, 0, 0, 1⟩, "cisco".toList, "Gi0/1".toList,
    "Gi0/2".toList, "full".toList, some ⟨10, 0, 0, 1⟩⟩

/-- A sample `CiscoLLDP` entry for system `R1` at `10.0.0.1`. -/
def lldpEntryR1 : CiscoLLDP :=
  ⟨"aabb.cc00.1100".toList, "Gi0/2".toList, "Gi0/1".toList, "R1".toList,
    some ⟨10, 0, 0, 1⟩⟩

/-- The `CiscoCDP` entry parsed from `cdpFullBlock`. -/
def cdpFullEntry : CiscoCDP :=
  ⟨"R1".toList, some ⟨10, 0, 0, 1⟩, "cisco WS-C2960".toList, "Gi0/1".toList,
    "Gi0/2".toList, "full".toList, some ⟨10, 0, 0, 5⟩⟩

/-- The detail record parsed from `lldpDetailR9`. -/
def lldpRawR9 : LldpRaw :=
  ⟨some "aabb.cc00.1100".toList, some "Gi0/2".toList, some "R9".toList,
    some ⟨10, 0, 0, 9⟩⟩

/-- The `CiscoLLDP` entry built from `lldpRawR9` under a brief listing
mapping `R9` to `Gi0/5`. -/
def lldpEntryR9 : CiscoLLDP :=
  ⟨"aabb.cc00.1100".toList, "Gi0/2".toList, "Gi0/5".toList, "R9".toList,
    some ⟨10, 0, 0, 9⟩⟩

/-! ## Helper lemmas -/

/-- A successful leftmost search succeeds at some position. -/
theorem searchAux_some_exists {f : Str → Option Str} {l : Str} {v : Str}
    (h : searchAux f l = some v) : ∃ n, f (l.drop n) = some v := by
  induction l with
  | nil => exact ⟨0, h⟩
  | cons c cs ih =>
    rw [searchAux] at h
    rcases hf : f (c :: cs) with _ | w
    · rw [hf] at h
      rcases ih h with ⟨n, hn⟩
      exact ⟨n + 1, hn⟩
    · rw [hf] at h
      exact ⟨0, by rw [List.drop_zero, hf]; exact h⟩

/-- A pattern that succeeds at some position makes the leftmost search
succeed. -/
theorem searchAux_isSome_of_exists {f : Str → Option Str} {l : Str} {n : Nat}
    {v : Str} (h : f (l.drop n) = some v) : (searchAux f l).isSome := by
  induction l generalizing n with
  | nil =>
    rw [List.drop_nil] at h
    simp [searchAux, h]
  | cons c cs ih =>
    rw [searchAux]
    rcases hf : f (c :: cs) with _ | w
    · cases n with
      | zero => rw [List.drop_zero, hf] at h; cases h
      | succ m => exact ih (n := m) h
    · rfl

/-- `leadsWith` characterised as list-append decomposition. -/
theorem leadsWith_iff {lit s : Str} :
    leadsWith lit s = true ↔ ∃ t, s = lit ++ t := by
  induction lit generalizing s with
  | nil => simp [leadsWith]
  | cons a as_ ih =>
    cases s with
    | nil => simp [leadsWith]
    | cons b bs =>
      rw [leadsWith]
      simp only [Bool.and_eq_true, decide_eq_true_eq, ih, List.cons_append,
        List.cons.injEq]
      constructor
      · rintro ⟨rfl, t, rfl⟩
        exact ⟨t, rfl, rfl⟩
      · rintro ⟨t, rfl, rfl⟩
        exact ⟨rfl, t, rfl⟩

/-- A successful attempt of a pattern whose literal is `p ++ q` yields a
successful attempt of the pattern with literal `q` further along. -/
theorem tryLit_append {p q : Str} {tail : Str → Option Str} {cs v : Str}
    (h : tryLit (p ++ q) tail cs = some v) :
    tryLit q tail (cs.drop p.length) = some v := by
  rw [tryLit] at h
  split at h
  · rename_i hl
    rcases leadsWith_iff.mp hl with ⟨t, rfl⟩
    rw [List.drop_left] at h
    have hdrop : List.drop p.length (p ++ q ++ t) = q ++ t := by
      rw [List.append_assoc, List.drop_left]
    show tryLit q tail (List.drop p.length (p ++ q ++ t)) = some v
    rw [hdrop, tryLit, if_pos (leadsWith_iff.mpr ⟨t, rfl⟩), List.drop_left]
    exact h
  · cases h

/-- The literal of the CDP management-address pattern ends with the whole
literal of the per-entry IP pattern. -/
theorem mgmtIpLit_decomp :
    mgmtIpLit.toList = "Management address(es): \r\n  ".toList ++ entryIpLit.toList := by
  decide

/-- Containment: a block on which the management-address pattern matches is
a block on which the per-entry IP pattern matches (the former's text
contains an `IP address: d.d.d.d` occurrence). -/
theorem cdp_mgmt_implies_entry {b : Str} (h : ((cdpMatch b).management_ip).isSome) :
    ((cdpMatch b).entry_ip).isSome := by
  rcases ho : (cdpMatch b).management_ip with _ | v
  · rw [ho] at h; cases h
  · have hs : searchAux (tryLit mgmtIpLit.toList matchIP) b = some v := ho
    rcases searchAux_some_exists hs with ⟨n, hn⟩
    rw [mgmtIpLit_decomp] at hn
    have ht := tryLit_append hn
    rw [List.drop_drop] at ht
    have := searchAux_isSome_of_exists ht
    simpa [cdpMatch, reSearch] using this

/-- Five matched string fields put the CDP matched-field count above the
skip threshold. -/
theorem cdpCount_ge_five {m : CdpMatched} {d p i o du : Str}
    (hd : m.device_id = some d) (hp : m.platform = some p)
    (hi : m.interface = some i) (ho : m.outgoing_port = some o)
    (hdu : m.duplex = some du) : ¬ m.count ≤ 2 := by
  rcases hE : m.entry_ip with _ | es <;> rcases hM : m.management_ip with _ | ms <;>
    simp [CdpMatched.count, hd, hp, hi, ho, hdu, hE, hM]

/-- Inversion for a successful `CiscoCDP` construction: the IP fields of
the entry are the ones passed. -/
theorem mkCdp_ok_some {m : CdpMatched} {eip mip : Option IPv4} {e : CiscoCDP}
    (h : mkCdp m eip mip = .ok (some e)) :
    e.entry_ip = eip ∧ e.management_ip = mip := by
  unfold mkCdp at h
  split at h
  · rename_i d p i o du hd hp hi ho hdu
    have h2 : (⟨d, eip, p, i, o, du, mip⟩ : CiscoCDP) = e := by
      injection h with h1
      injection h1
    subst h2
    exact ⟨rfl, rfl⟩
  · cases h

/-- Inversion for a successful `CiscoLLDP` construction: the management
IP is taken unchanged from the detail record. -/
theorem mkLldpEntry_management {r : LldpRaw} {intf : Option Str}
    {x : CiscoLLDP} (h : mkLldpEntry r intf = .ok x) :
    x.management_ip = r.management_ip := by
  unfold mkLldpEntry at h
  split at h
  · injection h with h1
    subst h1
    rfl
  · cases h

/-- An LLDP matched-field count of at least four forces all four fields,
in particular the management IP, to be present. -/
theorem lldpCount_all {m : LldpMatched} (h : 4 ≤ m.count) :
    m.chassis_id.isSome ∧ m.port_id.isSome ∧ m.system_name.isSome ∧
      m.management_ip.isSome := by
  rcases hc : m.chassis_id with _ | c <;> rcases hp : m.port_id with _ | p <;>
    rcases hs : m.system_name with _ | s <;>
    rcases hm : m.management_ip with _ | v <;>
    simp_all [LldpMatched.count]

/-! ## Claim theorems -/

/-- C1: the `neighbors` property maps each `CiscoCDP` entry to
`Neighbor(hostname=device_id, ip=management_ip)` and each `CiscoLLDP`
entry to `Neighbor(hostname=system_name, ip=management_ip)`, unions the two
lists and deduplicates by the `(hostname, ip)` pair: the result has no
duplicates, its members are exactly the mapped entries of either list
(irrespective of order), and two mapped entries coincide exactly when both
components agree. -/
theorem neighbors_reconciliation (cdp : List CiscoCDP) (lldp : List CiscoLLDP) :
    (neighbors cdp lldp).Nodup ∧
    (∀ n : Neighbor, n ∈ neighbors cdp lldp ↔
      ((∃ c ∈ cdp, n = cdpToNeighbor c) ∨ (∃ l ∈ lldp, n = lldpToNeighbor l))) ∧
    (∀ (c : CiscoCDP) (l : CiscoLLDP),
      cdpToNeighbor c = lldpToNeighbor l ↔
        (c.device_id = l.system_name ∧ c.management_ip = l.management_ip)) := by
  refine ⟨List.nodup_dedup _, fun n => ?_, fun c l => ?_⟩
  · simp only [neighbors, List.mem_dedup, List.mem_append, List.mem_map]
    constructor
    · rintro (⟨c, hc, rfl⟩ | ⟨l, hl, rfl⟩)
      · exact Or.inl ⟨c, hc, rfl⟩
      · exact Or.inr ⟨l, hl, rfl⟩
    · rintro (⟨c, hc, rfl⟩ | ⟨l, hl, rfl⟩)
      · exact Or.inl ⟨c, hc, rfl⟩
      · exact Or.inr ⟨l, hl, rfl⟩
  · simp [cdpToNeighbor, lldpToNeighbor, Neighbor.mk.injEq]

/-- C1 witness: at the spec's reconciliation example, a CDP entry and an
LLDP entry with hostname `R1` and IP `10.0.0.1` collapse to one neighbor. -/
theorem neighbors_reconciliation_witness :
    (neighbors [cdpEntryR1] [lldpEntryR1]).Nodup ∧
    cdpToNeighbor cdpEntryR1 ∈ neighbors [cdpEntryR1] [lldpEntryR1] ∧
    cdpToNeighbor cdpEntryR1 = lldpToNeighbor lldpEntryR1 := by
  refine ⟨(neighbors_reconciliation [cdpEntryR1] [lldpEntryR1]).1, ?_, ?_⟩
  · exact ((neighbors_reconciliation [cdpEntryR1] [lldpEntryR1]).2.1 _).mpr
      (Or.inl ⟨cdpEntryR1, by simp, rfl⟩)
  · exact ((neighbors_reconciliation [cdpEntryR1] [lldpEntryR1]).2.2
      cdpEntryR1 lldpEntryR1).mpr (by decide)

/-- C3: cross-protocol equality between a `CiscoCDP` and a `CiscoLLDP`
holds exactly when `device_id = system_name` and the management IPs agree
(including both `none`), is false when either component differs, and the
two `__eq__` directions agree. -/
theorem cross_protocol_equality (c : CiscoCDP) (l : CiscoLLDP) :
    (cdpEqLldp c l = true ↔
      (c.device_id = l.system_name ∧ c.management_ip = l.management_ip)) ∧
    ((c.device_id ≠ l.system_name ∨ c.management_ip ≠ l.management_ip) →
      cdpEqLldp c l = false) ∧
    cdpEqLldp c l = lldpEqCdp l c := by
  have e1 : (c.device_id == l.system_name) = (l.system_name == c.device_id) := by
    by_cases h : c.device_id = l.system_name
    · simp [h]
    · simp [h, Ne.symm h]
  have e2 : (c.management_ip == l.management_ip) =
      (l.management_ip == c.management_ip) := by
    by_cases h : c.management_ip = l.management_ip
    · simp [h]
    · simp [h, Ne.symm h]
  have hiff : cdpEqLldp c l = true ↔
      (c.device_id = l.system_name ∧ c.management_ip = l.management_ip) := by
    simp [cdpEqLldp]
  refine ⟨hiff, ?_, ?_⟩
  · intro h
    cases hb : cdpEqLldp c l with
    | false => rfl
    | true => exact absurd (hiff.mp hb) (by tauto)
  · simp [cdpEqLldp, lldpEqCdp, e1, e2]

/-- C3 witness: the sample entries `R1`/`10.0.0.1` are cross-protocol
equal in both directions. -/
theorem cross_protocol_equality_witness :
    cdpEqLldp cdpEntryR1 lldpEntryR1 = true ∧
    cdpEqLldp cdpEntryR1 lldpEntryR1 = lldpEqCdp lldpEntryR1 cdpEntryR1 :=
  ⟨(cross_protocol_equality cdpEntryR1 lldpEntryR1).1.mpr (by decide),
    (cross_protocol_equality cdpEntryR1 lldpEntryR1).2.2⟩

/-- C7: the connection guards as the code implements them.  With no
session object, `_check_connection` dereferences `None` and raises
`AttributeError` — not `NotConnectedError` — and `get_lldp`'s
`assert self.conn is not None` raises `AssertionError`; `NotConnectedError`
is raised only when a session exists but `find_prompt()` is `None`, a case
`get_lldp` does not check at all. -/
theorem connection_check_behavior :
    check_connection none = .error .attributeError ∧
    check_connection (some ⟨none⟩) = .error .notConnected ∧
    lldp_conn_guard none = .error .assertionError ∧
    lldp_conn_guard (some ⟨none⟩) = .ok () := by
  decide

/-- C2 counterexample: a block on which exactly three patterns match
(`entry_ip`, `outgoing_port`, `duplex`) does not yield a `CdpEntry` with
the unmatched fields null — pydantic raises `ValidationError` because the
required string field `device_id` is missing. -/
theorem cdp_three_matched_raises :
    (cdpMatch cdpThreeFieldBlock).count = 3 ∧
    (cdpMatch cdpThreeFieldBlock).device_id = none ∧
    parseCdpBlock cdpThreeFieldBlock = .error .validationError := by
  decide

/-- C5 counterexample: a fully matched LLDP detail record whose system
name `R9` has no entry in the brief listing does not keep a detail-parse
interface value and is not returned — the detail patterns never produce
`interface`, so `CiscoLLDP(**each)` raises `ValidationError` and
`get_lldp` fails. -/
theorem lldp_no_brief_match_raises :
    parseLldpAll (lldpBlocks lldpDetailR9) =
      .ok [⟨some "aabb.cc00.1100".toList, some "Gi0/2".toList,
        some "R9".toList, some ⟨10, 0, 0, 9⟩⟩] ∧
    get_lldp ⟨[], []⟩ lldpDetailR9 [] = (⟨[], []⟩, .error .validationError) := by
  decide

/-- C6 counterexample: a response without the disabled indicator on which
`get_cdp` still does not replace the stored list and return entries — the
malformed matched IP `999.0.0.1` makes `IPv4Address` raise, so the call
errors with the stored state untouched. -/
theorem get_cdp_otherwise_raises :
    cdpNotEnabledIn cdpMalformedIpResp = false ∧
    get_cdp ⟨[cdpEntryR1], []⟩ cdpMalformedIpResp =
      (⟨[cdpEntryR1], []⟩, .error .addressValueError) := by
  decide

/-- C8 counterexample: on a 20-character detected prompt the first access
to `hostname` returns the prompt with only its final character removed
(19 characters), not the prompt truncated to its first 16 characters. -/
theorem hostname_not_sixteen_chars :
    prompt20.length = 20 ∧
    hostname ⟨some ⟨some prompt20⟩, none⟩ =
      .ok ("ABCDEFGHIJKLMNOPQRS".toList,
        ⟨some ⟨some prompt20⟩, some "ABCDEFGHIJKLMNOPQRS".toList⟩) ∧
    ("ABCDEFGHIJKLMNOPQRS".toList : Str) ≠ prompt20.take 16 := by
  decide

/-- C9 counterexample: parsing of an IP-valued field does raise — the
`entry_ip` pattern matches the malformed string `999.0.0.1`, and
`IPv4Address` on it raises `AddressValueError` instead of leaving the
field null. -/
theorem cdp_malformed_ip_raises :
    (cdpMatch cdpMalformedIpBlock).entry_ip = some "999.0.0.1".toList ∧
    parseCdpBlock cdpMalformedIpBlock = .error .addressValueError := by
  decide

/-- C2 amended: a CDP block with at most two matched patterns is skipped
without error; a block with three or more matched patterns yields exactly
one entry only when all five required string fields (`device_id`,
`platform`, `interface`, `outgoing_port`, `duplex`) are among the matches
and the matched IP strings convert — the matched fields then carry the
extracted strings, an unmatched `entry_ip` is null, and an unmatched
`management_ip` defaults to the entry IP rather than null. -/
theorem cdp_block_parse_spec (b : Str) :
    ((cdpMatch b).count ≤ 2 → parseCdpBlock b = .ok none) ∧
    (∀ d p i o du,
      (cdpMatch b).device_id = some d → (cdpMatch b).platform = some p →
      (cdpMatch b).interface = some i → (cdpMatch b).outgoing_port = some o →
      (cdpMatch b).duplex = some du →
      ((cdpMatch b).entry_ip = none →
        parseCdpBlock b = .ok (some ⟨d, none, p, i, o, du, none⟩)) ∧
      (∀ es eip, (cdpMatch b).entry_ip = some es → parseIPv4 es = some eip →
        ((cdpMatch b).management_ip = none →
          parseCdpBlock b = .ok (some ⟨d, some eip, p, i, o, du, some eip⟩)) ∧
        (∀ ms mip, (cdpMatch b).management_ip = some ms →
          parseIPv4 ms = some mip →
          parseCdpBlock b = .ok (some ⟨d, some eip, p, i, o, du, some mip⟩)))) := by
  constructor
  · intro hle
    simp [parseCdpBlock, hle]
  · intro d p i o du hd hp hi ho hdu
    have hgt := cdpCount_ge_five hd hp hi ho hdu
    constructor
    · intro hE
      simp [parseCdpBlock, hgt, hE, mkCdp, hd, hp, hi, ho, hdu]
    · intro es eip hE hip
      constructor
      · intro hM
        simp [parseCdpBlock, hgt, hE, hM, hip, mkCdp, hd, hp, hi, ho, hdu]
      · intro ms mip hM hmip
        simp [parseCdpBlock, hgt, hE, hM, hip, hmip, mkCdp, hd, hp, hi, ho, hdu]

/-- C2 witness: on a block matching the five string patterns and no IP
pattern, the amended theorem yields the concrete entry with null IPs. -/
theorem cdp_block_parse_spec_witness :
    parseCdpBlock cdpStrBlock =
      .ok (some ⟨"R1".toList, none, "cisco".toList, "Gi0/1".toList,
        "Gi0/2".toList, "full".toList, none⟩) :=
  ((cdp_block_parse_spec cdpStrBlock).2 "R1".toList "cisco".toList
    "Gi0/1".toList "Gi0/2".toList "full".toList (by decide) (by decide)
    (by decide) (by decide) (by decide)).1 (by decide)

/-- C4: for every accepted CDP block, `management_ip` is the explicitly
matched management-address value when that pattern matched (possible
because the management pattern's text always contains a per-entry
`IP address:` occurrence, so the `if entry_ip` guard passes); it defaults
to the entry IP when the management pattern did not match; and it is null
exactly when the block has no matched per-entry IP at all. -/
theorem cdp_management_ip_resolution (b : Str) (e : CiscoCDP)
    (h : parseCdpBlock b = .ok (some e)) :
    (∀ ms, (cdpMatch b).management_ip = some ms →
      e.management_ip = parseIPv4 ms) ∧
    ((cdpMatch b).management_ip = none →
      e.management_ip = ((cdpMatch b).entry_ip.bind parseIPv4) ∧
      e.management_ip = e.entry_ip) ∧
    (e.management_ip = none ↔ (cdpMatch b).entry_ip = none) := by
  by_cases hle : (cdpMatch b).count ≤ 2
  · simp [parseCdpBlock, hle] at h
  · rcases hE : (cdpMatch b).entry_ip with _ | es
    · have hmk : mkCdp (cdpMatch b) none none = .ok (some e) := by
        simpa [parseCdpBlock, hle, hE] using h
      obtain ⟨he1, he2⟩ := mkCdp_ok_some hmk
      refine ⟨fun ms hM => ?_, fun _ => ⟨by simp [hE, he2], by rw [he2, he1]⟩,
        by simp [hE, he2]⟩
      exfalso
      have hcont := cdp_mgmt_implies_entry (b := b) (by rw [hM]; rfl)
      rw [hE] at hcont
      cases hcont
    · rcases hM : (cdpMatch b).management_ip with _ | ms
      · rcases hip : parseIPv4 es with _ | eip
        · exfalso
          simp [parseCdpBlock, hle, hE, hM, hip] at h
        · have hmk : mkCdp (cdpMatch b) (some eip) (some eip) = .ok (some e) := by
            simpa [parseCdpBlock, hle, hE, hM, hip] using h
          obtain ⟨he1, he2⟩ := mkCdp_ok_some hmk
          refine ⟨fun ms2 hMs => ?_, fun _ => ⟨?_, ?_⟩, ?_⟩
          · cases hMs
          · simp [hE, he2, hip]
          · rw [he2, he1]
          · simp [he2, hE]
      · rcases hip : parseIPv4 es with _ | eip
        · exfalso
          simp [parseCdpBlock, hle, hE, hM, hip] at h
        · rcases hmp : parseIPv4 ms with _ | mip
          · exfalso
            simp [parseCdpBlock, hle, hE, hM, hip, hmp] at h
          · have hmk : mkCdp (cdpMatch b) (some eip) (some mip) = .ok (some e) := by
              simpa [parseCdpBlock, hle, hE, hM, hip, hmp] using h
            obtain ⟨he1, he2⟩ := mkCdp_ok_some hmk
            refine ⟨fun ms2 hMs => ?_, fun hMn => ?_, ?_⟩
            · injection hMs with hms
              subst hms
              rw [he2, hmp]
            · cases hMn
            · simp [he2, hE]

/-- Inversion for an accepted LLDP detail block: the threshold passed and
the management IP, forced present by the four-of-four threshold, was
converted successfully. -/
theorem parseLldpBlock_ok_some {b : Str} {r : LldpRaw}
    (h : parseLldpBlock b = .ok (some r)) :
    r.chassis_id = (lldpMatch b).chassis_id ∧
    r.port_id = (lldpMatch b).port_id ∧
    r.system_name = (lldpMatch b).system_name ∧
    r.management_ip.isSome := by
  by_cases hlt : (lldpMatch b).count < 4
  · simp [parseLldpBlock, hlt] at h
  · rcases hM : (lldpMatch b).management_ip with _ | s
    · exfalso
      have hall := (lldpCount_all (m := lldpMatch b) (by omega)).2.2.2
      rw [hM] at hall
      cases hall
    · rcases hp : parseIPv4 s with _ | ip
      · simp [parseLldpBlock, hlt, hM, hp] at h
      · have h2 : (⟨(lldpMatch b).chassis_id, (lldpMatch b).port_id,
            (lldpMatch b).system_name, some ip⟩ : LldpRaw) = r := by
          have h3 : parseLldpBlock b = .ok (some ⟨(lldpMatch b).chassis_id,
              (lldpMatch b).port_id, (lldpMatch b).system_name, some ip⟩) := by
            simp [parseLldpBlock, hlt, hM, hp]
          rw [h3] at h
          injection h with h4
          injection h4
        subst h2
        exact ⟨rfl, rfl, rfl, rfl⟩

/-- Every record the LLDP detail loop accepts carries a management IP. -/
theorem parseLldpAll_management {bs : List Str} {raws : List LldpRaw}
    (h : parseLldpAll bs = .ok raws) :
    ∀ r ∈ raws, r.management_ip.isSome := by
  induction bs generalizing raws with
  | nil =>
    simp only [parseLldpAll] at h
    injection h with h1
    subst h1
    intro r hr
    cases hr
  | cons b bs ih =>
    simp only [parseLldpAll] at h
    rcases hb : parseLldpBlock b with er | ro <;> rw [hb] at h
    · cases h
    · rcases ro with _ | x
      · exact ih h
      · rcases ht : parseLldpAll bs with er | xs <;> rw [ht] at h
        · cases h
        · injection h with h1
          subst h1
          intro r hr
          rcases List.mem_cons.mp hr with rfl | hmem
          · exact (parseLldpBlock_ok_some hb).2.2.2
          · exact ih ht r hmem

/-- The final construction loop of `get_lldp` preserves the management IP
of each record. -/
theorem buildLldp_management {brief : Str} {raws : List LldpRaw}
    {es : List CiscoLLDP} (h : buildLldp brief raws = .ok es)
    (hr : ∀ r ∈ raws, r.management_ip.isSome) :
    ∀ e ∈ es, e.management_ip.isSome := by
  induction raws generalizing es with
  | nil =>
    simp only [buildLldp] at h
    injection h with h1
    subst h1
    intro e he
    cases he
  | cons r rs ih =>
    simp only [buildLldp] at h
    rcases hmk : mkLldpEntry r (enrich brief r) with er | x <;> rw [hmk] at h
    · cases h
    · rcases hb : buildLldp brief rs with er | xs <;> rw [hb] at h
      · cases h
      · injection h with h1
        subst h1
        intro e he
        rcases List.mem_cons.mp he with rfl | hmem
        · rw [mkLldpEntry_management hmk]
          exact hr r (by simp)
        · exact ih hb (fun q hq => hr q (by simp [hq])) e hmem

/-- C10: every `CiscoLLDP` entry a successful `get_lldp` returns has a
non-null management IP — the detail parser defines exactly four patterns,
so the four-matched-fields threshold admits a block only when the
management-IP pattern matched, and enrichment/construction preserve the
field. -/
theorem lldp_management_ip_always_present (st st' : SwitchState)
    (detail brief : Str) (es : List CiscoLLDP)
    (h : get_lldp st detail brief = (st', .ok es)) :
    ∀ e ∈ es, e.management_ip.isSome := by
  unfold get_lldp at h
  rcases hall : parseLldpAll (lldpBlocks detail) with er | raws <;>
    simp only [hall] at h
  · exact absurd (congrArg Prod.snd h) (by simp)
  · rcases hb : buildLldp brief raws with er | entries <;>
      simp only [hb] at h
    · exact absurd (congrArg Prod.snd h) (by simp)
    · have h2 : entries = es := by
        have h3 := congrArg Prod.snd h
        simpa using h3
      subst h2
      exact buildLldp_management hb (parseLldpAll_management hall)

/-- C10 witness: the entry returned for the concrete detail block of
system `R9` carries its management IP `10.0.0.9`. -/
theorem lldp_management_ip_always_present_witness :
    lldpEntryR9.management_ip.isSome :=
  lldp_management_ip_always_present ⟨[], []⟩ ⟨[], [lldpEntryR9]⟩ lldpDetailR9
    "R9   Gi0/5".toList [lldpEntryR9] (by decide) lldpEntryR9 (by simp)

/-- C4 witness: on the complete concrete block, the resulting entry's
management IP is the explicitly matched management-address value. -/
theorem cdp_management_ip_resolution_witness :
    cdpFullEntry.management_ip = parseIPv4 "10.0.0.5".toList :=
  (cdp_management_ip_resolution cdpFullBlock cdpFullEntry (by decide)).1
    "10.0.0.5".toList (by decide)

/-- C5 amended: for a detail record with its three string fields present,
a brief-listing match on the system name sets `interface` to the mapped
value and one `CiscoLLDP` entry results; the detail parse itself never
produces an `interface` value, so a record with no brief match fails
pydantic validation and `get_lldp` raises instead of returning an entry
for it. -/
theorem lldp_enrichment_spec (brief : Str) (r : LldpRaw) (ci po sn : Str)
    (hc : r.chassis_id = some ci) (hp : r.port_id = some po)
    (hs : r.system_name = some sn) :
    (∀ v, enrich brief r = some v →
      mkLldpEntry r (enrich brief r) = .ok ⟨ci, po, v, sn, r.management_ip⟩) ∧
    (∀ v, briefMapGet brief sn = some v → v ≠ [] → enrich brief r = some v) ∧
    (enrich brief r = none →
      mkLldpEntry r (enrich brief r) = .error .validationError) ∧
    (∀ st detail, parseLldpAll (lldpBlocks detail) = .ok [r] →
      enrich brief r = none →
      get_lldp st detail brief = (st, .error .validationError)) := by
  refine ⟨fun v hv => ?_, fun v hv hne => ?_, fun hnone => ?_,
    fun st detail hparse hnone => ?_⟩
  · simp [mkLldpEntry, hc, hp, hs, hv]
  · simp [enrich, hs, hv, hne]
  · simp [mkLldpEntry, hc, hp, hs, hnone]
  · simp [get_lldp, hparse, buildLldp, mkLldpEntry, hc, hp, hs, hnone]

/-- C5 witness: the spec's enrichment example — the brief line
`R1    Gi0/1` gives the record with system name `R1` the interface
`Gi0/1`, and the entry is returned. -/
theorem lldp_enrichment_spec_witness :
    enrich "R1    Gi0/1".toList
      ⟨some "aabb.cc00.1100".toList, some "Gi0/2".toList, some "R1".toList,
        some ⟨10, 0, 0, 1⟩⟩ = some "Gi0/1".toList ∧
    mkLldpEntry
      ⟨some "aabb.cc00.1100".toList, some "Gi0/2".toList, some "R1".toList,
        some ⟨10, 0, 0, 1⟩⟩
      (enrich "R1    Gi0/1".toList
        ⟨some "aabb.cc00.1100".toList, some "Gi0/2".toList, some "R1".toList,
          some ⟨10, 0, 0, 1⟩⟩) =
      .ok ⟨"aabb.cc00.1100".toList, "Gi0/2".toList, "Gi0/1".toList,
        "R1".toList, some ⟨10, 0, 0, 1⟩⟩ := by
  have hspec := lldp_enrichment_spec "R1    Gi0/1".toList
    ⟨some "aabb.cc00.1100".toList, some "Gi0/2".toList, some "R1".toList,
      some ⟨10, 0, 0, 1⟩⟩ "aabb.cc00.1100".toList "Gi0/2".toList "R1".toList
    rfl rfl rfl
  have henr := hspec.2.1 "Gi0/1".toList (by decide) (by decide)
  exact ⟨henr, hspec.1 "Gi0/1".toList henr⟩

/-- C6 amended: when the response contains the disabled indicator,
`get_cdp` raises `CDPNotEnabledError` and leaves the stored lists
unchanged; otherwise, when every block parses without exception, it
replaces the stored CDP list wholesale with the newly parsed entries and
returns them (a zero-entry result included); a parsing exception likewise
leaves the stored state unchanged. -/
theorem get_cdp_spec (st : SwitchState) (resp : Str) :
    (cdpNotEnabledIn resp = true →
      get_cdp st resp = (st, .error .cdpNotEnabled)) ∧
    (cdpNotEnabledIn resp = false →
      (∀ es, parseCdpAll (cdpBlocks resp) = .ok es →
        get_cdp st resp = ({ st with cdp := es }, .ok es)) ∧
      (∀ er, parseCdpAll (cdpBlocks resp) = .error er →
        get_cdp st resp = (st, .error er))) := by
  refine ⟨fun h => ?_, fun h => ⟨fun es hes => ?_, fun er her => ?_⟩⟩
  · simp [get_cdp, h]
  · simp [get_cdp, h, hes]
  · simp [get_cdp, h, her]

/-- C6 witness: on a disabled-indicator response the stored list (here
nonempty) is untouched, and an empty response parses to zero entries,
which is returned as a success, not an error. -/
theorem get_cdp_spec_witness :
    get_cdp ⟨[cdpEntryR1], []⟩ cdpDisabledResp =
      (⟨[cdpEntryR1], []⟩, .error .cdpNotEnabled) ∧
    get_cdp ⟨[cdpEntryR1], []⟩ [] = (⟨[], []⟩, .ok []) :=
  ⟨(get_cdp_spec ⟨[cdpEntryR1], []⟩ cdpDisabledResp).1 (by decide),
    ((get_cdp_spec ⟨[cdpEntryR1], []⟩ []).2 (by decide)).1 [] (by decide)⟩

/-- C8 amended: the first access to `hostname` on a live session returns
the detected prompt with its final character (the prompt terminator)
removed — not a 16-character truncation — and caches it; while the cached
value is nonempty, later accesses return the identical cached value
without consulting the session at all. -/
theorem hostname_spec (p : Str) (c : Option Session) :
    hostname ⟨some ⟨some p⟩, none⟩ =
      .ok (p.dropLast, ⟨some ⟨some p⟩, some p.dropLast⟩) ∧
    (p.dropLast ≠ [] →
      hostname ⟨c, some p.dropLast⟩ = .ok (p.dropLast, ⟨c, some p.dropLast⟩)) := by
  constructor
  · rfl
  · intro hne
    simp [hostname, hne]

/-- C8 witness: on the 20-character prompt, the first access returns and
caches the 19-character value, and a second access returns it even when
the session object is gone (no re-query). -/
theorem hostname_spec_witness :
    hostname ⟨some ⟨some prompt20⟩, none⟩ =
      .ok (prompt20.dropLast, ⟨some ⟨some prompt20⟩, some prompt20.dropLast⟩) ∧
    hostname ⟨none, some prompt20.dropLast⟩ =
      .ok (prompt20.dropLast, ⟨none, some prompt20.dropLast⟩) :=
  ⟨(hostname_spec prompt20 none).1,
    (hostname_spec prompt20 none).2 (by decide)⟩

/-- C9 amended: an absent IP-valued field is left null and raises nothing;
a matched IP-valued field is a dotted digit string converted through
`IPv4Address`, and when every matched IP string is a valid address the
parse raises no `AddressValueError` — but a matched out-of-range string
does raise, aborting the batch. -/
theorem ip_field_parse_spec (b : Str) :
    ((cdpMatch b).entry_ip = none →
      parseCdpBlock b ≠ .error .addressValueError ∧
      (∀ e, parseCdpBlock b = .ok (some e) →
        e.entry_ip = none ∧ e.management_ip = none)) ∧
    (∀ es, (cdpMatch b).entry_ip = some es → (parseIPv4 es).isSome →
      (∀ ms, (cdpMatch b).management_ip = some ms → (parseIPv4 ms).isSome) →
      parseCdpBlock b ≠ .error .addressValueError) ∧
    ((lldpMatch b).management_ip = none →
      parseLldpBlock b ≠ .error .addressValueError) ∧
    (∀ s, (lldpMatch b).management_ip = some s → (parseIPv4 s).isSome →
      parseLldpBlock b ≠ .error .addressValueError) := by
  refine ⟨fun hE => ?_, fun es hE hip hm => ?_, fun hM => ?_,
    fun s hM hip => ?_⟩
  · by_cases hle : (cdpMatch b).count ≤ 2
    · constructor
      · simp [parseCdpBlock, hle]
      · intro e he
        simp [parseCdpBlock, hle] at he
    · have hfold : parseCdpBlock b = mkCdp (cdpMatch b) none none := by
        simp [parseCdpBlock, hle, hE]
      rw [hfold]
      constructor
      · unfold mkCdp
        split <;> simp
      · intro e he
        exact mkCdp_ok_some he
  · obtain ⟨eip, hip2⟩ := Option.isSome_iff_exists.mp hip
    by_cases hle : (cdpMatch b).count ≤ 2
    · simp [parseCdpBlock, hle]
    · rcases hM : (cdpMatch b).management_ip with _ | ms
      · have hfold : parseCdpBlock b = mkCdp (cdpMatch b) (some eip) (some eip) := by
          simp [parseCdpBlock, hle, hE, hM, hip2]
        rw [hfold]
        unfold mkCdp
        split <;> simp
      · obtain ⟨mip, hmp2⟩ := Option.isSome_iff_exists.mp (hm ms hM)
        have hfold : parseCdpBlock b = mkCdp (cdpMatch b) (some eip) (some mip) := by
          simp [parseCdpBlock, hle, hE, hM, hip2, hmp2]
        rw [hfold]
        unfold mkCdp
        split <;> simp
  · by_cases hlt : (lldpMatch b).count < 4 <;> simp [parseLldpBlock, hlt, hM]
  · obtain ⟨ip, hip2⟩ := Option.isSome_iff_exists.mp hip
    by_cases hlt : (lldpMatch b).count < 4 <;>
      simp [parseLldpBlock, hlt, hM, hip2]

/-- C9 witness: on the concrete block with no matched IP field, parsing
raises no address error and both IP fields of its entry are null. -/
theorem ip_field_parse_spec_witness :
    parseCdpBlock cdpStrBlock ≠ .error .addressValueError ∧
    (⟨"R1".toList, none, "cisco".toList, "Gi0/1".toList, "Gi0/2".toList,
      "full".toList, none⟩ : CiscoCDP).entry_ip = none :=
  ⟨((ip_field_parse_spec cdpStrBlock).1 (by decide)).1,
    (((ip_field_parse_spec cdpStrBlock).1 (by decide)).2 _ (by decide)).1⟩

end Networkst
